import Mathlib

set_option maxHeartbeats 1000000

/-!
Verification development for the feather-testing repository.

The model is a shallow embedding of:
  - src/session.ts : class Session (the chain engine): queue of steps,
    `enqueue`, `executeSteps`, and the fluent methods (each fluent method is
    exactly one `enqueue` of a descriptor string plus a deferred driver call);
  - src/errors.ts : class StepError (failure trace builder);
  - src/rtl/driver.ts : class RTLDriver over a simplified DOM;
  - src/playwright/driver.ts : PlaywrightDriver.assertPath over a URL string.

JavaScript thrown values are modelled by the inductive `Cause`; promises by
`Except Cause`; the engine is generic in the type of deferred actions, and a
drain threads the back-end state explicitly.
-/

namespace Feather

/-- Diagnostic identity of a queued step: its descriptor and its position
index.  This is the part of a step that the failure trace builder reads. -/
structure StepInfo where
  name : String
  index : Nat
deriving DecidableEq

/-- A JavaScript value thrown by a step.  `basic msg` is an `Error` whose
`.message` is `msg`; `step f all inner` is a `StepError` (src/errors.ts) with
failed step `f`, snapshot `all` and inner `cause`; `raw s` is a non-`Error`
thrown value whose `String(v)` rendering is `s`. -/
inductive Cause where
  | basic (msg : String)
  | step (failed : StepInfo) (all : List StepInfo) (inner : Cause)
  | raw (s : String)

/-- Status marker of a step in a failure trace, from src/errors.ts:
completed strictly below the failed index, failed at it, skipped above it. -/
def statusOf (failedIndex : Nat) (i : Nat) : String :=
  if i < failedIndex then "[ok]"
  else if i = failedIndex then "[FAILED]"
  else "[skipped]"

/-- One line of the chain listing in a StepError message (src/errors.ts):
the failed line alone carries the distinct visual marker.  The source
compares `step === failedStep` by reference; in every snapshot the engine
builds, indices are pairwise distinct, so value equality on `StepInfo`
coincides with reference equality there. -/
def stepLine (failed : StepInfo) (s : StepInfo) : String :=
  (if s = failed then ">>> " else "    ")
    ++ statusOf failed.index s.index ++ " " ++ s.name

/-- The `.message` of a thrown value as read by
`cause instanceof Error ? cause.message : String(cause)` (src/errors.ts):
for an `Error` its message, for a non-`Error` its string form.  For a
`StepError` the message is the one built in its constructor. -/
def causeMessage : Cause → String
  | .basic m => m
  | .raw s => s
  | .step failed all inner =>
      "feather-testing: Step " ++ toString (failed.index + 1) ++ " of "
        ++ toString all.length ++ " failed\n\n"
        ++ "Failed at: " ++ failed.name ++ "\n"
        ++ "Cause: " ++ causeMessage inner ++ "\n\n"
        ++ "Chain:\n"
        ++ String.intercalate "\n" (all.map (stepLine failed)) ++ "\n"

/-- A queued step (src/types.ts `QueuedStep`): descriptor, deferred action,
and the index assigned at enqueue time.  The engine is generic in the type
`α` of deferred actions;  a back end is a function running one action. -/
structure QueuedStep (α : Type) where
  name : String
  action : α
  index : Nat

/-- The diagnostic projection of a queued step. -/
def QueuedStep.info {α : Type} (s : QueuedStep α) : StepInfo :=
  ⟨s.name, s.index⟩

/-- The data of a raised `StepError` (src/errors.ts): the failed step, the
full drained snapshot, and the structurally preserved original cause (the
`{ cause }` option passed to the `Error` constructor). -/
structure StepError (α : Type) where
  failedStep : QueuedStep α
  allSteps : List (QueuedStep α)
  cause : Cause

/-- A `StepError` viewed as a thrown JavaScript value. -/
def StepError.toCause {α : Type} (e : StepError α) : Cause :=
  .step e.failedStep.info (e.allSteps.map QueuedStep.info) e.cause

/-- The `.message` of a raised `StepError`. -/
def StepError.message {α : Type} (e : StepError α) : String :=
  causeMessage e.toCause

/-- The chain engine state (src/session.ts `Session`): the pending queue and
the next index to assign. -/
structure Session (α : Type) where
  steps : List (QueuedStep α)
  stepIndex : Nat

/-- `Session.enqueue` (src/session.ts lines 39–42): push one step carrying
the current `stepIndex`, then increment it. -/
def Session.enqueue {α : Type} (s : Session α) (name : String) (a : α) :
    Session α :=
  { steps := s.steps ++ [⟨name, a, s.stepIndex⟩], stepIndex := s.stepIndex + 1 }

/-- Issue a whole sequence of fluent calls (each fluent method of `Session`
is exactly one `enqueue` of its descriptor and deferred action). -/
def Session.enqueueAll {α : Type} (s : Session α) (l : List (String × α)) :
    Session α :=
  l.foldl (fun s p => s.enqueue p.1 p.2) s

/-- The loop body of `executeSteps` (src/session.ts lines 30–36): run the
captured snapshot in order; on the first failing action stop and raise a
`StepError` built from the failed step, the snapshot and the cause.  The
back-end state reached so far is returned alongside the outcome. -/
def runSteps {α σ : Type} (run : α → σ → Except Cause σ)
    (snapshot : List (QueuedStep α)) :
    List (QueuedStep α) → σ → σ × Option (StepError α)
  | [], st => (st, none)
  | s :: rest, st =>
      match run s.action st with
      | .ok st' => runSteps run snapshot rest st'
      | .error e => (st, some ⟨s, snapshot, e⟩)

/-- `Session.executeSteps` (src/session.ts lines 26–37): snapshot the pending
queue, swap it out for an empty one, then run the snapshot.  Awaiting the
session (`then`) calls exactly this. -/
def Session.executeSteps {α σ : Type} (s : Session α)
    (run : α → σ → Except Cause σ) (st : σ) :
    Session α × σ × Option (StepError α) :=
  ({ s with steps := [] }, runSteps run s.steps s.steps st)

/-- The steps `enqueueAll` appends when the next index to assign is `b`
(specification-side helper used to state results). -/
def stepsFrom {α : Type} (b : Nat) : List (String × α) → List (QueuedStep α)
  | [] => []
  | (n, a) :: l => ⟨n, a, b⟩ :: stepsFrom (b + 1) l

/-! ### Instrumented back end for the engine-level claims

A deferred action is abstracted by the identity of the back-end operation it
invokes and the outcome of that call; the back-end state is the log of
invoked operations, so ordering and multiplicity of invocations are
observable.  A failing call contributes no log entry of its own. -/

/-- An abstract deferred action: `opId` identifies the back-end operation the
step's thunk invokes; `result = none` means the call succeeds, and
`result = some c` means it throws `c`. -/
structure ActionSpec where
  opId : Nat
  result : Option Cause

/-- Run one abstract action against the invocation log. -/
def runSpec (a : ActionSpec) (log : List Nat) : Except Cause (List Nat) :=
  match a.result with
  | none => .ok (log ++ [a.opId])
  | some c => .error c

/-! ### Basic lemmas about the engine -/

theorem enqueueAll_steps {α : Type} (l : List (String × α)) (s : Session α) :
    (s.enqueueAll l).steps = s.steps ++ stepsFrom s.stepIndex l := by
  induction l generalizing s with
  | nil => simp [Session.enqueueAll, stepsFrom]
  | cons p l ih =>
      cases p with
      | mk n a =>
          simp [Session.enqueueAll, stepsFrom, Session.enqueue] at *
          rw [ih]
          simp [Session.enqueue]

theorem enqueueAll_stepIndex {α : Type} (l : List (String × α))
    (s : Session α) :
    (s.enqueueAll l).stepIndex = s.stepIndex + l.length := by
  induction l generalizing s with
  | nil => simp [Session.enqueueAll]
  | cons p l ih =>
      simp [Session.enqueueAll] at *
      rw [ih]
      simp [Session.enqueue]
      omega

theorem stepsFrom_append {α : Type} (b : Nat) (l1 l2 : List (String × α)) :
    stepsFrom b (l1 ++ l2)
      = stepsFrom b l1 ++ stepsFrom (b + l1.length) l2 := by
  induction l1 generalizing b with
  | nil => simp [stepsFrom]
  | cons p l ih =>
      cases p with
      | mk n a =>
          simp [stepsFrom, ih]
          have : b + 1 + l.length = b + (l.length + 1) := by omega
          rw [this]

theorem stepsFrom_length {α : Type} (b : Nat) (l : List (String × α)) :
    (stepsFrom b l).length = l.length := by
  induction l generalizing b with
  | nil => simp [stepsFrom]
  | cons p l ih => cases p; simp [stepsFrom, ih]

theorem stepsFrom_index_bounds {α : Type} (b : Nat) (l : List (String × α)) :
    ∀ q ∈ stepsFrom b l, b ≤ q.index ∧ q.index < b + l.length := by
  induction l generalizing b with
  | nil => simp [stepsFrom]
  | cons p l ih =>
      cases p with
      | mk n a =>
          intro q hq
          simp [stepsFrom] at hq
          rcases hq with h | h
          · subst h
            exact ⟨Nat.le_refl b, by simp only [List.length_cons]; omega⟩
          · have := ih (b + 1) q h
            simp only [List.length_cons]
            omega

theorem map_eq_replicate_of_forall {α β : Type} (l : List α) (f : α → β)
    (v : β) (h : ∀ x ∈ l, f x = v) :
    l.map f = List.replicate l.length v := by
  induction l with
  | nil => simp
  | cons x l ih =>
      simp [List.replicate]
      constructor
      · exact h x (by simp)
      · exact ih (fun y hy => h y (by simp [hy]))

/-- Draining a run of all-succeeding abstract steps appends exactly their
operation ids, in order, and reports no error. -/
theorem runSteps_all_ok (snapshot : List (QueuedStep ActionSpec))
    (steps : List (QueuedStep ActionSpec)) (log : List Nat)
    (h : ∀ q ∈ steps, q.action.result = none) :
    runSteps runSpec snapshot steps log
      = (log ++ steps.map (fun q => q.action.opId), none) := by
  induction steps generalizing log with
  | nil => simp [runSteps]
  | cons q rest ih =>
      have hq : q.action.result = none := h q (by simp)
      simp [runSteps, runSpec, hq]
      rw [ih (log ++ [q.action.opId]) (fun x hx => h x (by simp [hx]))]
      simp

/-- Draining all-succeeding steps followed by a failing step stops at the
failing step: the log gains only the ids of the preceding steps, and the
raised error carries the failing step, the snapshot, and the original
cause. -/
theorem runSteps_first_fail (snapshot : List (QueuedStep ActionSpec))
    (ok : List (QueuedStep ActionSpec)) (f : QueuedStep ActionSpec)
    (rest : List (QueuedStep ActionSpec)) (log : List Nat) (c : Cause)
    (hok : ∀ q ∈ ok, q.action.result = none)
    (hf : f.action.result = some c) :
    runSteps runSpec snapshot (ok ++ f :: rest) log
      = (log ++ ok.map (fun q => q.action.opId), some ⟨f, snapshot, c⟩) := by
  induction ok generalizing log with
  | nil => simp [runSteps, runSpec, hf]
  | cons q okrest ih =>
      have hq : q.action.result = none := hok q (by simp)
      simp [runSteps, runSpec, hq]
      rw [ih (log ++ [q.action.opId]) (fun x hx => hok x (by simp [hx]))]
      simp

theorem stepsFrom_map_opId (b : Nat) (l : List (String × ActionSpec)) :
    (stepsFrom b l).map (fun q => q.action.opId)
      = l.map (fun p => p.2.opId) := by
  induction l generalizing b with
  | nil => simp [stepsFrom]
  | cons p l ih => cases p; simp [stepsFrom, ih]

theorem stepsFrom_forall_result (b : Nat) (l : List (String × ActionSpec))
    (h : ∀ p ∈ l, p.2.result = none) :
    ∀ q ∈ stepsFrom b l, q.action.result = none := by
  induction l generalizing b with
  | nil => simp [stepsFrom]
  | cons p l ih =>
      cases p with
      | mk n a =>
          intro q hq
          simp [stepsFrom] at hq
          rcases hq with h' | h'
          · subst h'; exact h (n, a) (by simp)
          · exact ih (b + 1) (fun x hx => h x (by simp [hx])) q h'

/-- A drain of an all-succeeding queue enqueued on a fresh queue at base
index `b`: resolves with no error, logs each operation once in order, and
leaves the queue empty with `stepIndex` advanced. -/
theorem executeSteps_all_ok (l : List (String × ActionSpec)) (b : Nat)
    (log : List Nat) (h : ∀ p ∈ l, p.2.result = none) :
    (Session.enqueueAll ⟨[], b⟩ l).executeSteps runSpec log
      = (⟨[], b + l.length⟩, log ++ l.map (fun p => p.2.opId), none) := by
  have hsteps : (Session.enqueueAll (⟨[], b⟩ : Session ActionSpec) l).steps
      = stepsFrom b l := by
    rw [enqueueAll_steps]; rfl
  have hidx := enqueueAll_stepIndex l (⟨[], b⟩ : Session ActionSpec)
  simp only [Session.executeSteps, hsteps, hidx]
  rw [runSteps_all_ok (stepsFrom b l) (stepsFrom b l) log
        (stepsFrom_forall_result b l h),
      stepsFrom_map_opId]

theorem statusOf_lt {k i : Nat} (h : i < k) : statusOf k i = "[ok]" := by
  simp [statusOf, h]

theorem statusOf_self (k : Nat) : statusOf k k = "[FAILED]" := by
  simp [statusOf]

theorem statusOf_gt {k i : Nat} (h : k < i) : statusOf k i = "[skipped]" := by
  unfold statusOf
  rw [if_neg (by omega), if_neg (by omega)]

/-- The snapshot of a queue enqueued at base `b` splits around the first
failing call. -/
theorem stepsFrom_split (b : Nat) (pre post : List (String × ActionSpec))
    (nf : String) (f : ActionSpec) :
    stepsFrom b (pre ++ (nf, f) :: post)
      = stepsFrom b pre
          ++ (⟨nf, f, b + pre.length⟩ : QueuedStep ActionSpec)
            :: stepsFrom (b + pre.length + 1) post := by
  rw [stepsFrom_append]
  rfl

/-- A drain whose first failure is the call after `pre`: it stops there, logs
only the operations of `pre`, and raises a `StepError` carrying the failed
step, the whole snapshot and the original cause as a structured field. -/
theorem executeSteps_first_fail (pre post : List (String × ActionSpec))
    (nf : String) (f : ActionSpec) (c : Cause) (b : Nat) (log : List Nat)
    (hpre : ∀ p ∈ pre, p.2.result = none) (hf : f.result = some c) :
    (Session.enqueueAll ⟨[], b⟩ (pre ++ (nf, f) :: post)).executeSteps
        runSpec log
      = (⟨[], b + (pre.length + 1 + post.length)⟩,
         log ++ pre.map (fun p => p.2.opId),
         some ⟨⟨nf, f, b + pre.length⟩,
               stepsFrom b (pre ++ (nf, f) :: post), c⟩) := by
  have hsteps : (Session.enqueueAll (⟨[], b⟩ : Session ActionSpec)
        (pre ++ (nf, f) :: post)).steps
      = stepsFrom b (pre ++ (nf, f) :: post) := by
    rw [enqueueAll_steps]; rfl
  have hidx := enqueueAll_stepIndex (pre ++ (nf, f) :: post)
    (⟨[], b⟩ : Session ActionSpec)
  have hlen : (⟨[], b⟩ : Session ActionSpec).stepIndex
        + (pre ++ (nf, f) :: post).length
      = b + (pre.length + 1 + post.length) := by
    simp only [List.length_append, List.length_cons]
    omega
  rw [hlen] at hidx
  simp only [Session.executeSteps, hsteps, hidx]
  rw [stepsFrom_split]
  rw [runSteps_first_fail
        (stepsFrom b pre
          ++ (⟨nf, f, b + pre.length⟩ : QueuedStep ActionSpec)
            :: stepsFrom (b + pre.length + 1) post)
        (stepsFrom b pre) ⟨nf, f, b + pre.length⟩
        (stepsFrom (b + pre.length + 1) post) log c
        (stepsFrom_forall_result b pre hpre) hf,
      stepsFrom_map_opId]

/-- The derived statuses of a snapshot around its first failure: completed
strictly before, failed at, skipped strictly after. -/
theorem status_classification (pre post : List (String × ActionSpec))
    (nf : String) (f : ActionSpec) (b : Nat) :
    (stepsFrom b (pre ++ (nf, f) :: post)).map
        (fun q => statusOf (b + pre.length) q.index)
      = List.replicate pre.length "[ok]"
          ++ "[FAILED]" :: List.replicate post.length "[skipped]" := by
  rw [stepsFrom_split]
  rw [List.map_append, List.map_cons]
  have h1 : (stepsFrom (α := ActionSpec) b pre).map
        (fun q => statusOf (b + pre.length) q.index)
      = List.replicate pre.length "[ok]" := by
    rw [map_eq_replicate_of_forall _ _ _
          (fun q hq => statusOf_lt
            ((stepsFrom_index_bounds b pre q hq).2)),
        stepsFrom_length]
  have h2 : (stepsFrom (α := ActionSpec) (b + pre.length + 1) post).map
        (fun q => statusOf (b + pre.length) q.index)
      = List.replicate post.length "[skipped]" := by
    rw [map_eq_replicate_of_forall _ _ _
          (fun q hq => statusOf_gt
            (by have := (stepsFrom_index_bounds _ post q hq).1; omega)),
        stepsFrom_length]
  rw [h1, h2]
  simp [statusOf_self]

/-- C1: for every sequence of chained calls on one engine whose deferred
actions all succeed, a single triggering consumption resolves with no value,
and the back-end operation of each call is invoked exactly once, in exactly
the order the calls were issued (the invocation log extends by the operation
ids in issue order). -/
theorem chain_all_ok (l : List (String × ActionSpec)) (b : Nat)
    (log : List Nat) (h : ∀ p ∈ l, p.2.result = none) :
    (Session.enqueueAll ⟨[], b⟩ l).executeSteps runSpec log
      = (⟨[], b + l.length⟩, log ++ l.map (fun p => p.2.opId), none) :=
  executeSteps_all_ok l b log h

theorem chain_all_ok_witness :
    (Session.enqueueAll ⟨[], 0⟩
        [("visit('/')", ⟨1, none⟩), ("click('x')", ⟨2, none⟩)]).executeSteps
        runSpec []
      = (⟨[], 2⟩, [1, 2], none) :=
  chain_all_ok [("visit('/')", ⟨1, none⟩), ("click('x')", ⟨2, none⟩)] 0 []
    (by intro p hp; fin_cases hp <;> rfl)

/-- C2: when the call after `pre` is the first to fail, the drain halts
immediately (the log gains only the operations of the preceding steps, none
of a later step), the raised report classifies the earlier steps as
completed, the failing one as failed, the later ones as skipped, and the
original error is preserved as the structured `cause` field of the raised
`StepError`, not only interpolated into its message text. -/
theorem chain_first_failure (pre post : List (String × ActionSpec))
    (nf : String) (f : ActionSpec) (c : Cause) (b : Nat) (log : List Nat)
    (hpre : ∀ p ∈ pre, p.2.result = none) (hf : f.result = some c) :
    (Session.enqueueAll ⟨[], b⟩ (pre ++ (nf, f) :: post)).executeSteps
        runSpec log
      = (⟨[], b + (pre.length + 1 + post.length)⟩,
         log ++ pre.map (fun p => p.2.opId),
         some ⟨⟨nf, f, b + pre.length⟩,
               stepsFrom b (pre ++ (nf, f) :: post), c⟩)
    ∧ (stepsFrom b (pre ++ (nf, f) :: post)).map
          (fun q => statusOf (b + pre.length) q.index)
        = List.replicate pre.length "[ok]"
            ++ "[FAILED]" :: List.replicate post.length "[skipped]" :=
  ⟨executeSteps_first_fail pre post nf f c b log hpre hf,
   status_classification pre post nf f b⟩

theorem chain_first_failure_witness :
    (Session.enqueueAll ⟨[], 0⟩
        [("fillIn('Email', 'x')", ⟨1, none⟩),
         ("clickButton('Sign up')", ⟨2, some (.basic "0 elements")⟩),
         ("assertText('Hi')", ⟨3, none⟩)]).executeSteps runSpec []
      = (⟨[], 0 + (1 + 1 + 1)⟩,
         [] ++ [("fillIn('Email', 'x')",
                  (⟨1, none⟩ : ActionSpec))].map (fun p => p.2.opId),
         some ⟨⟨"clickButton('Sign up')", ⟨2, some (.basic "0 elements")⟩,
                 0 + 1⟩,
               stepsFrom 0
                 ([("fillIn('Email', 'x')", ⟨1, none⟩)]
                   ++ ("clickButton('Sign up')",
                        (⟨2, some (.basic "0 elements")⟩ : ActionSpec))
                     :: [("assertText('Hi')", ⟨3, none⟩)]), .basic "0 elements"⟩)
    ∧ (stepsFrom 0
          ([("fillIn('Email', 'x')", ⟨1, none⟩)]
            ++ ("clickButton('Sign up')",
                 (⟨2, some (.basic "0 elements")⟩ : ActionSpec))
              :: [("assertText('Hi')", ⟨3, none⟩)])).map
          (fun q => statusOf (0 + 1) q.index)
        = List.replicate 1 "[ok]"
            ++ "[FAILED]" :: List.replicate 1 "[skipped]" :=
  chain_first_failure [("fillIn('Email', 'x')", ⟨1, none⟩)]
    [("assertText('Hi')", ⟨3, none⟩)] "clickButton('Sign up')"
    ⟨2, some (.basic "0 elements")⟩ (.basic "0 elements") 0 []
    (by intro p hp; fin_cases hp <;> rfl) rfl

/-- C3: an engine drained to completion and then given new queued calls
executes only the newly queued calls on the next trigger, and the indices of
the new steps continue from where the previous enqueued sequence stopped
instead of resetting to zero. -/
theorem retrigger (l1 l2 : List (String × ActionSpec)) (log : List Nat)
    (h1 : ∀ p ∈ l1, p.2.result = none) (h2 : ∀ p ∈ l2, p.2.result = none) :
    ((((Session.enqueueAll ⟨[], 0⟩ l1).executeSteps runSpec
        log).1).enqueueAll l2).steps
      = stepsFrom l1.length l2
    ∧ ((((Session.enqueueAll ⟨[], 0⟩ l1).executeSteps runSpec
          log).1).enqueueAll l2).executeSteps runSpec
          (((Session.enqueueAll ⟨[], 0⟩ l1).executeSteps runSpec log).2.1)
        = (⟨[], l1.length + l2.length⟩,
           (log ++ l1.map (fun p => p.2.opId)) ++ l2.map (fun p => p.2.opId),
           none) := by
  rw [executeSteps_all_ok l1 0 log h1]
  constructor
  · rw [enqueueAll_steps]
    simp
  · have := executeSteps_all_ok l2 l1.length
      (log ++ l1.map (fun p => p.2.opId)) h2
    simpa using this

theorem retrigger_witness :
    ((((Session.enqueueAll ⟨[], 0⟩
          [("visit('/')", (⟨1, none⟩ : ActionSpec))]).executeSteps runSpec
        []).1).enqueueAll [("submit()", ⟨2, none⟩)]).steps
      = stepsFrom [("visit('/')",
          (⟨1, none⟩ : ActionSpec))].length [("submit()", ⟨2, none⟩)]
    ∧ ((((Session.enqueueAll ⟨[], 0⟩
            [("visit('/')", (⟨1, none⟩ : ActionSpec))]).executeSteps runSpec
          []).1).enqueueAll [("submit()", ⟨2, none⟩)]).executeSteps runSpec
          (((Session.enqueueAll ⟨[], 0⟩
              [("visit('/')", (⟨1, none⟩ : ActionSpec))]).executeSteps
              runSpec []).2.1)
        = (⟨[], [("visit('/')", (⟨1, none⟩ : ActionSpec))].length
              + [("submit()", (⟨2, none⟩ : ActionSpec))].length⟩,
           ([] ++ [("visit('/')",
               (⟨1, none⟩ : ActionSpec))].map (fun p => p.2.opId))
             ++ [("submit()",
                   (⟨2, none⟩ : ActionSpec))].map (fun p => p.2.opId),
           none) :=
  retrigger [("visit('/')", ⟨1, none⟩)] [("submit()", ⟨2, none⟩)] []
    (by intro p hp; fin_cases hp <;> rfl)
    (by intro p hp; fin_cases hp <;> rfl)

/-- C10: a trigger swaps the whole pending queue out for an empty one, so
after any drain — including a failing one — the pending queue is empty (the
skipped steps are discarded), the index counter is untouched, and an
immediately subsequent trigger with nothing newly queued resolves with no
error and leaves the back-end state unchanged (it invokes no back-end
operation). -/
theorem drain_swaps_queue {α σ : Type} (run : α → σ → Except Cause σ)
    (s : Session α) (st : σ) :
    (s.executeSteps run st).1.steps = []
    ∧ (s.executeSteps run st).1.stepIndex = s.stepIndex
    ∧ (s.executeSteps run st).1.executeSteps run (s.executeSteps run st).2.1
        = ((s.executeSteps run st).1, (s.executeSteps run st).2.1, none) :=
  ⟨rfl, rfl, rfl⟩

/-- A two-drain scenario: one engine drains two succeeding steps, is given
one new step whose deferred action fails, and is drained again. -/
def reportScenario :
    Session ActionSpec × List Nat × Option (StepError ActionSpec) :=
  let first := (Session.enqueueAll ⟨[], 0⟩
    [("visit('/')", ⟨1, none⟩),
     ("click('x')", ⟨2, none⟩)]).executeSteps runSpec []
  (first.1.enqueueAll
    [("submit()", ⟨3, some (.basic "boom")⟩)]).executeSteps runSpec first.2.1

/-- C4 counterexample: on a drain after an earlier drain of the same engine,
the raised report renders position `3 of 1` — the failed step is the first
and only step of the drain's snapshot (so its one-based position within the
snapshot is 1), yet the rendered position is 3, exceeding the rendered
total. -/
theorem report_position_counterexample :
    reportScenario.2.2.map (fun E =>
        (E.failedStep.index + 1, E.allSteps.length,
         E.allSteps.map QueuedStep.info, E.message))
      = some (3, 1, [⟨"submit()", 2⟩],
          "feather-testing: Step 3 of 1 failed\n\n"
            ++ "Failed at: submit()\n"
            ++ "Cause: boom\n\n"
            ++ "Chain:\n>>> [FAILED] submit()\n")
    ∧ 3 > 1 := by
  constructor
  · rfl
  · decide

/-- C4 amended: the raised report renders one plus the failed step's
engine-global index as the position (equal to the position within the
snapshot only when no step was drained earlier on the engine, and able to
exceed the rendered total otherwise), the snapshot's total step count, the
failed step's descriptor, and a one-line rendering of the underlying cause —
its message if it is an `Error`, else its string form (`causeMessage`) —
while preserving the original cause as the structured `cause` field. -/
theorem report_rendering (pre post : List (String × ActionSpec))
    (nf : String) (f : ActionSpec) (c : Cause) (b : Nat) (log : List Nat)
    (hpre : ∀ p ∈ pre, p.2.result = none) (hf : f.result = some c) :
    ∃ E : StepError ActionSpec,
      ((Session.enqueueAll ⟨[], b⟩ (pre ++ (nf, f) :: post)).executeSteps
          runSpec log).2.2 = some E
      ∧ E.message
          = "feather-testing: Step " ++ toString (b + pre.length + 1)
              ++ " of " ++ toString (pre.length + 1 + post.length)
              ++ " failed\n\n"
              ++ "Failed at: " ++ nf ++ "\n"
              ++ "Cause: " ++ causeMessage c ++ "\n\n"
              ++ "Chain:\n"
              ++ String.intercalate "\n"
                  ((stepsFrom b (pre ++ (nf, f) :: post)).map
                    (fun q => stepLine ⟨nf, b + pre.length⟩ q.info)) ++ "\n"
      ∧ E.cause = c := by
  refine ⟨⟨⟨nf, f, b + pre.length⟩,
           stepsFrom b (pre ++ (nf, f) :: post), c⟩, ?_, ?_, rfl⟩
  · rw [executeSteps_first_fail pre post nf f c b log hpre hf]
  · show causeMessage _ = _
    simp only [StepError.toCause, QueuedStep.info, causeMessage,
      List.map_map]
    have hlen : ((stepsFrom (α := ActionSpec) b
          (pre ++ (nf, f) :: post)).map QueuedStep.info).length
        = pre.length + 1 + post.length := by
      rw [List.length_map, stepsFrom_length]
      simp only [List.length_append, List.length_cons]
      omega
    rw [hlen]
    rfl

theorem report_rendering_witness :
    ∃ E : StepError ActionSpec,
      ((Session.enqueueAll ⟨[], 2⟩
          ([] ++ ("submit()",
                   (⟨9, some (.basic "boom")⟩ : ActionSpec)) :: [])).executeSteps
          runSpec []).2.2 = some E
      ∧ E.message
          = "feather-testing: Step " ++ toString (2 + List.length
                (α := String × ActionSpec) [] + 1)
              ++ " of " ++ toString (List.length
                (α := String × ActionSpec) [] + 1 + List.length
                (α := String × ActionSpec) [])
              ++ " failed\n\n"
              ++ "Failed at: " ++ "submit()" ++ "\n"
              ++ "Cause: " ++ causeMessage (.basic "boom") ++ "\n\n"
              ++ "Chain:\n"
              ++ String.intercalate "\n"
                  ((stepsFrom 2 ([] ++ ("submit()",
                      (⟨9, some (.basic "boom")⟩ : ActionSpec)) :: [])).map
                    (fun q => stepLine ⟨"submit()", 2 + List.length
                      (α := String × ActionSpec) []⟩ q.info)) ++ "\n"
      ∧ E.cause = .basic "boom" :=
  report_rendering [] [] "submit()" ⟨9, some (.basic "boom")⟩
    (.basic "boom") 2 [] (by intro p hp; exact absurd hp (by simp)) rfl

/-! ### Simplified DOM and the in-memory (RTL) back end, src/rtl/driver.ts

The element lookup strategies of testing-library and the DOM itself are
external collaborators; they are modelled by a flat list of elements with
explicit fields for everything the driver code reads: accessible role and
name, label and placeholder text, text content, the `type` attribute,
checked state, value, the result of `closest('form')` (`formId`), the ids of
the ancestor elements (for scoping queries to a container) and the CSS
selector the element answers to (for `querySelector`).  A `findBy*` query
resolves exactly one match and rejects zero or several; a `queryBy*` query
returns nothing on zero matches and rejects several. -/

structure Elem where
  id : Nat
  tag : String
  css : String
  role : String
  name : String
  label : String
  placeholder : String
  text : String
  typ : String
  checked : Bool
  value : String
  formId : Option Nat
  ancestors : List Nat
deriving DecidableEq

/-- An observable user-event gesture issued by the driver against the DOM. -/
inductive Event where
  | clicked (elemId : Nat)
  | typed (elemId : Nat) (value : String)
  | formSubmitted (formId : Nat)
deriving DecidableEq

/-- The state an RTL driver instance acts on: the shared document, the
instance's own `lastFormElement` slot, and the log of gestures issued. -/
structure RTLState where
  dom : List Elem
  lastForm : Option Nat
  events : List Event
deriving DecidableEq

/-- Whether an element is inside the query container (`screen` when the
container is `none`, else the subtree of the container element). -/
def inScope (c : Option Nat) (e : Elem) : Bool :=
  match c with
  | none => true
  | some i => e.ancestors.contains i

/-- Model of a `findBy*` query: one match resolves, zero or several throw. -/
def findByPred (what : String) (c : Option Nat) (p : Elem → Bool)
    (dom : List Elem) : Except Cause Elem :=
  match dom.filter (fun e => inScope c e && p e) with
  | [e] => .ok e
  | [] => .error (.basic ("Unable to find an element " ++ what))
  | _ => .error (.basic ("Found multiple elements " ++ what))

/-- Model of a `queryBy*` query: zero matches yield nothing, several throw. -/
def queryByPred (what : String) (p : Elem → Bool) (dom : List Elem) :
    Except Cause (Option Elem) :=
  match dom.filter p with
  | [] => .ok none
  | [e] => .ok (some e)
  | _ => .error (.basic ("Found multiple elements " ++ what))

/-- Effect of `user.click` on one element of the document: the clicked
checkbox toggles, a clicked radio becomes selected, anything else keeps its
state. -/
def clickEffect (e : Elem) (x : Elem) : Elem :=
  if x.id = e.id then
    if x.typ = "checkbox" then { x with checked := !x.checked }
    else if x.typ = "radio" then { x with checked := true }
    else x
  else x

/-- Effect of `user.click` on the document. -/
def applyClick (e : Elem) (dom : List Elem) : List Elem :=
  dom.map (clickEffect e)

/-- `await this.user.click(element)`: apply the gesture and log it. -/
def userClick (e : Elem) (st : RTLState) : RTLState :=
  { st with dom := applyClick e st.dom, events := st.events ++ [.clicked e.id] }

/-- Effect on one element of typing `v` into the element with id `i`. -/
def setVal (i : Nat) (v : String) (x : Elem) : Elem :=
  if x.id = i then { x with value := v } else x

/-- `await this.user.clear(input); await this.user.type(input, value)`:
the element's value becomes `value`; logged as one typing gesture. -/
def setValue (e : Elem) (v : String) (st : RTLState) : RTLState :=
  { st with
    dom := st.dom.map (setVal e.id v),
    events := st.events ++ [.typed e.id v] }

/-- Substring test on character lists. -/
def containsSub (l pat : List Char) : Bool :=
  (List.range (l.length + 1)).any (fun i => pat.isPrefixOf (l.drop i))

/-- Case-insensitive substring test, modelling the `/submit/i` accessible
name filter of `queryByRole` in `RTLDriver.submit`. -/
def containsCI (s pat : String) : Bool :=
  containsSub (s.data.map Char.toLower) (pat.data.map Char.toLower)

/-- The operations a chain can queue (one per fluent method the claims
need).  `within` carries the list of operations the callback queues on the
nested session. -/
inductive Op where
  | visit (path : String)
  | click (text : String)
  | fillIn (label value : String)
  | check (label : String)
  | uncheck (label : String)
  | submit
  | assertText (text : String)
  | assertPath (path : String) (queryParams : Option (List (String × String)))
  | refutePath (path : String)
  | within (selector : String) (nested : List Op)

/-- The descriptor each fluent method passes to `enqueue`
(src/session.ts); `assertPath` drops its options from the descriptor. -/
def opName : Op → String
  | .visit p => "visit('" ++ p ++ "')"
  | .click t => "click('" ++ t ++ "')"
  | .fillIn l v => "fillIn('" ++ l ++ "', '" ++ v ++ "')"
  | .check l => "check('" ++ l ++ "')"
  | .uncheck l => "uncheck('" ++ l ++ "')"
  | .submit => "submit()"
  | .assertText t => "assertText('" ++ t ++ "')"
  | .assertPath p _ => "assertPath('" ++ p ++ "')"
  | .refutePath p => "refutePath('" ++ p ++ "')"
  | .within s _ => "within('" ++ s ++ "')"

/-- The diagnostic step list a nested session of the given queued operations
reports (descriptor plus index, indices from `k`). -/
def opInfos (k : Nat) : List Op → List StepInfo
  | [] => []
  | op :: rest => ⟨opName op, k⟩ :: opInfos (k + 1) rest

/-- The stable messages of the operations the RTL adapter does not
support. -/
def rtlVisitMsg : String :=
  "visit() is not available in the RTL adapter. Render the desired component directly."

def rtlAssertPathMsg : String :=
  "assertPath() is not available in the RTL adapter (no real URL in JSDOM)."

def rtlRefutePathMsg : String :=
  "refutePath() is not available in the RTL adapter (no real URL in JSDOM)."

def rtlSubmitNoFormMsg : String :=
  "submit() called but no form was previously interacted with."

/-- The `fillIn` target lookup (src/rtl/driver.ts lines 40–46): try
`findByLabelText`, and on any failure fall back to
`findByPlaceholderText`. -/
def rtlFillInLookup (c : Option Nat) (lbl : String) (dom : List Elem) :
    Except Cause Elem :=
  match findByPred ("with the label text of: " ++ lbl) c
      (fun e => e.label == lbl) dom with
  | .ok el => .ok el
  | .error _ =>
      findByPred ("with the placeholder text of: " ++ lbl) c
        (fun e => e.placeholder == lbl) dom

mutual

/-- One deferred action of an RTL-backed chain, run against the driver whose
container is `c` (src/rtl/driver.ts).  `fillIn` tries the label lookup and
falls back to the placeholder lookup on any failure; `check`/`uncheck` click
only when the current state differs from the target; `submit` requires the
`lastFormElement` slot, then looks inside that form for a button whose
accessible name matches `/submit/i`, else the first submit-typed control,
else falls back to `requestSubmit()`; `within` resolves the selector under
the container (`querySelector`: first match or nothing), builds a fresh
session against a driver scoped to that element (own empty queue, own empty
`lastFormElement`) and awaits it, propagating its `StepError` as the cause.
Form-subtree membership is tested through `formId` (an element's closest
form is the form it sits inside). -/
def runOp (c : Option Nat) : Op → RTLState → Except Cause RTLState
  | .visit _, _ => .error (.basic rtlVisitMsg)
  | .click text, st =>
      match findByPred ("with the text: " ++ text) c
          (fun e => e.text == text) st.dom with
      | .error e => .error e
      | .ok el => .ok (userClick el st)
  | .fillIn lbl value, st =>
      match rtlFillInLookup c lbl st.dom with
      | .error e => .error e
      | .ok el => .ok { setValue el value st with lastForm := el.formId }
  | .check lbl, st =>
      match findByPred ("with the label text of: " ++ lbl) c
          (fun e => e.label == lbl) st.dom with
      | .error e => .error e
      | .ok el =>
          if el.checked then .ok { st with lastForm := el.formId }
          else .ok { userClick el st with lastForm := el.formId }
  | .uncheck lbl, st =>
      match findByPred ("with the label text of: " ++ lbl) c
          (fun e => e.label == lbl) st.dom with
      | .error e => .error e
      | .ok el =>
          if el.checked then .ok { userClick el st with lastForm := el.formId }
          else .ok { st with lastForm := el.formId }
  | .submit, st =>
      match st.lastForm with
      | none => .error (.basic rtlSubmitNoFormMsg)
      | some f =>
          match queryByPred "with the role button and name /submit/i"
              (fun e => e.formId == some f && e.role == "button"
                && containsCI e.name "submit") st.dom with
          | .error e => .error e
          | .ok (some btn) => .ok (userClick btn st)
          | .ok none =>
              match (st.dom.filter (fun e => e.formId == some f
                  && (e.tag == "button" || e.tag == "input")
                  && e.typ == "submit")).head? with
              | some btn => .ok (userClick btn st)
              | none => .ok { st with events := st.events ++ [.formSubmitted f] }
  | .assertText text, st =>
      match findByPred ("with the text: " ++ text) c
          (fun e => e.text == text) st.dom with
      | .error e => .error e
      | .ok _ => .ok st
  | .assertPath _ _, _ => .error (.basic rtlAssertPathMsg)
  | .refutePath _, _ => .error (.basic rtlRefutePathMsg)
  | .within sel nested, st =>
      match (st.dom.filter (fun e => inScope c e && e.css == sel)).head? with
      | none => .error (.basic ("within('" ++ sel ++ "'): element not found"))
      | some root =>
          match runOps (some root.id) (opInfos 0 nested) 0 nested
              { dom := st.dom, lastForm := none, events := st.events } with
          | .ok st' =>
              .ok { dom := st'.dom, lastForm := st.lastForm,
                    events := st'.events }
          | .error e => .error e

/-- The drain of a nested session built from `ops` (the callback of `within`
queues `ops` on the fresh scoped session, and the scoping step awaits it):
sequential execution that, at the first failure, throws the nested session's
`StepError` — its failed step's descriptor and index, the full diagnostic
snapshot `all`, and the inner cause. -/
def runOps (c : Option Nat) (all : List StepInfo) (k : Nat) :
    List Op → RTLState → Except Cause RTLState
  | [], st => .ok st
  | op :: rest, st =>
      match runOp c op st with
      | .ok st' => runOps c all (k + 1) rest st'
      | .error e => .error (.step ⟨opName op, k⟩ all e)

end

/-- One fluent method call on an RTL-backed session: `enqueue` of the
descriptor and the deferred driver call (what every method of `Session`
does). -/
def Session.addOp (s : Session Op) (o : Op) : Session Op :=
  s.enqueue (opName o) o

/-- The session obtained by issuing the given calls on a fresh engine. -/
def sessionOfOps (ops : List Op) : Session Op :=
  ops.foldl Session.addOp ⟨[], 0⟩

theorem foldl_addOp (ops : List Op) (s : Session Op) :
    ops.foldl Session.addOp s
      = s.enqueueAll (ops.map (fun o => (opName o, o))) := by
  induction ops generalizing s with
  | nil => rfl
  | cons op rest ih =>
      simp only [List.foldl, List.map_cons]
      rw [ih]
      rfl

theorem sessionOfOps_eq (ops : List Op) :
    sessionOfOps ops
      = Session.enqueueAll ⟨[], 0⟩ (ops.map (fun o => (opName o, o))) :=
  foldl_addOp ops ⟨[], 0⟩

theorem opInfos_eq (ops : List Op) : ∀ k : Nat,
    opInfos k ops
      = (stepsFrom k (ops.map (fun o => (opName o, o)))).map
          QueuedStep.info := by
  induction ops with
  | nil => intro k; rfl
  | cons op rest ih =>
      intro k
      simp only [opInfos, List.map_cons, stepsFrom, ih (k + 1)]
      rfl

/-- A failing drain's raised `StepError` always carries the captured
snapshot as its step list. -/
theorem runSteps_err_allSteps {α σ : Type} (run : α → σ → Except Cause σ)
    (snap : List (QueuedStep α)) (steps : List (QueuedStep α)) :
    ∀ (st : σ) (E : StepError α),
      (runSteps run snap steps st).2 = some E → E.allSteps = snap := by
  induction steps with
  | nil => intro st E h; simp [runSteps] at h
  | cons s rest ih =>
      intro st E h
      simp only [runSteps] at h
      cases hr : run s.action st with
      | ok st' =>
          rw [hr] at h
          exact ih st' E h
      | error e =>
          rw [hr] at h
          simp at h
          rw [← h]

/-- The nested drain performed inside a `within` step agrees with awaiting a
fresh session on which the callback queued the same operations: same final
state on success, and on failure the thrown value is that session's
`StepError` (with the step list replaced by the diagnostic list `all` the
caller captured). -/
theorem runOps_eq_runSteps (c : Option Nat) (ops : List Op) :
    ∀ (k : Nat) (all : List StepInfo) (snap : List (QueuedStep Op))
      (st : RTLState),
      runOps c all k ops st
        = (match runSteps (runOp c) snap
              (stepsFrom k (ops.map (fun o => (opName o, o)))) st with
           | (st', none) => .ok st'
           | (_, some E) => .error (.step E.failedStep.info all E.cause)) := by
  induction ops with
  | nil => intro k all snap st; rfl
  | cons op rest ih =>
      intro k all snap st
      simp only [runOps, List.map_cons, stepsFrom, runSteps]
      cases h : runOp c op st with
      | ok st' =>
          simp only [h]
          exact ih (k + 1) all snap st'
      | error e =>
          simp only [h]
          rfl

/-- `runOps` with the diagnostic list of its own operations is exactly the
triggering consumption of the nested session, with a failure surfacing as
the nested `StepError` thrown as a value. -/
theorem runOps_spec (c : Option Nat) (ops : List Op) (st : RTLState) :
    runOps c (opInfos 0 ops) 0 ops st
      = (match (sessionOfOps ops).executeSteps (runOp c) st with
         | (_, st', none) => .ok st'
         | (_, _, some E) => .error E.toCause) := by
  have hsteps : (sessionOfOps ops).steps
      = stepsFrom 0 (ops.map (fun o => (opName o, o))) := by
    rw [sessionOfOps_eq, enqueueAll_steps]
    rfl
  rw [runOps_eq_runSteps c ops 0 (opInfos 0 ops) (sessionOfOps ops).steps st]
  simp only [Session.executeSteps, ← hsteps]
  cases hr : runSteps (runOp c) (sessionOfOps ops).steps
      (sessionOfOps ops).steps st with
  | mk st' oe =>
      cases oe with
      | none => rfl
      | some E =>
          have hall : E.allSteps = (sessionOfOps ops).steps :=
            runSteps_err_allSteps (runOp c) (sessionOfOps ops).steps
              (sessionOfOps ops).steps st E (by rw [hr])
          simp only [StepError.toCause, hall, hsteps, opInfos_eq]

/-- C8: on the in-memory (RTL) back end, navigation and path assertions fail
on every call, from every state, with the same stable descriptive cause —
never a silent no-op or success — and repeated calls behave identically. -/
theorem rtl_unsupported_ops (c : Option Nat) (st st' : RTLState)
    (path path2 path3 : String)
    (opts : Option (List (String × String))) :
    runOp c (.visit path) st = .error (.basic rtlVisitMsg)
    ∧ runOp c (.assertPath path2 opts) st = .error (.basic rtlAssertPathMsg)
    ∧ runOp c (.refutePath path3) st = .error (.basic rtlRefutePathMsg)
    ∧ runOp c (.visit path) st = runOp c (.visit path) st'
    ∧ runOp c (.assertPath path2 opts) st = runOp c (.assertPath path2 opts) st'
    ∧ runOp c (.refutePath path3) st = runOp c (.refutePath path3) st' := by
  refine ⟨?_, ?_, ?_, ?_, ?_, ?_⟩ <;> simp [runOp]

theorem filter_map_invariant {g : Elem → Elem} {p : Elem → Bool}
    (h : ∀ x, p (g x) = p x) (l : List Elem) :
    (l.map g).filter p = (l.filter p).map g := by
  induction l with
  | nil => rfl
  | cons x l ih =>
      simp only [List.map_cons, List.filter_cons, h x]
      cases hx : p x with
      | false => simpa [hx] using ih
      | true => simp [hx, ih]

/-- Clicking changes only checked state, so any predicate blind to the
`checked` field is invariant under it. -/
theorem clickEffect_pred_invariant (e : Elem) {p : Elem → Bool}
    (hp : ∀ (x : Elem) (b : Bool), p { x with checked := b } = p x) :
    ∀ x, p (clickEffect e x) = p x := by
  intro x
  unfold clickEffect
  by_cases h1 : x.id = e.id
  · rw [if_pos h1]
    by_cases h2 : x.typ = "checkbox"
    · rw [if_pos h2]
      exact hp x _
    · rw [if_neg h2]
      by_cases h3 : x.typ = "radio"
      · rw [if_pos h3]
        exact hp x true
      · rw [if_neg h3]
  · rw [if_neg h1]

theorem applyClick_filter (e : Elem) (dom : List Elem) {p : Elem → Bool}
    (hp : ∀ (x : Elem) (b : Bool), p { x with checked := b } = p x) :
    (applyClick e dom).filter p = (dom.filter p).map (clickEffect e) :=
  filter_map_invariant (clickEffect_pred_invariant e hp) dom

theorem clickEffect_self_checkbox (e : Elem) (h : e.typ = "checkbox") :
    clickEffect e e = { e with checked := !e.checked } := by
  simp [clickEffect, h]

/-- C9: on a uniquely labelled checkbox, `check` issues the click gesture
exactly when the control is not yet checked and `uncheck` exactly when it is
(otherwise the state is untouched apart from the last-form slot), and a
second consecutive `check` after a `check` on an unchecked control issues no
gesture and leaves the control checked — symmetrically for `uncheck`. -/
theorem check_uncheck_idempotent (c : Option Nat) (st : RTLState)
    (lbl : String) (el : Elem)
    (hfind : st.dom.filter (fun e => inScope c e && e.label == lbl) = [el])
    (htyp : el.typ = "checkbox") :
    (el.checked = true →
      runOp c (.check lbl) st = .ok { st with lastForm := el.formId })
    ∧ (el.checked = false →
      runOp c (.uncheck lbl) st = .ok { st with lastForm := el.formId })
    ∧ (el.checked = false →
      runOp c (.check lbl) st
          = .ok { dom := applyClick el st.dom, lastForm := el.formId,
                  events := st.events ++ [.clicked el.id] }
        ∧ (applyClick el st.dom).filter
              (fun e => inScope c e && e.label == lbl)
            = [{ el with checked := true }]
        ∧ runOp c (.check lbl)
              { dom := applyClick el st.dom, lastForm := el.formId,
                events := st.events ++ [.clicked el.id] }
          = .ok { dom := applyClick el st.dom, lastForm := el.formId,
                  events := st.events ++ [.clicked el.id] })
    ∧ (el.checked = true →
      runOp c (.uncheck lbl) st
          = .ok { dom := applyClick el st.dom, lastForm := el.formId,
                  events := st.events ++ [.clicked el.id] }
        ∧ (applyClick el st.dom).filter
              (fun e => inScope c e && e.label == lbl)
            = [{ el with checked := false }]
        ∧ runOp c (.uncheck lbl)
              { dom := applyClick el st.dom, lastForm := el.formId,
                events := st.events ++ [.clicked el.id] }
          = .ok { dom := applyClick el st.dom, lastForm := el.formId,
                  events := st.events ++ [.clicked el.id] }) := by
  have hfilter : (applyClick el st.dom).filter
        (fun e => inScope c e && e.label == lbl)
      = [clickEffect el el] := by
    rw [applyClick_filter el st.dom
          (p := fun e => inScope c e && e.label == lbl) (fun x b => rfl),
        hfind]
    rfl
  refine ⟨?_, ?_, ?_, ?_⟩
  · intro hc
    simp [runOp, findByPred, hfind, hc]
  · intro hc
    simp [runOp, findByPred, hfind, hc]
  · intro hc
    have hce : clickEffect el el = { el with checked := true } := by
      rw [clickEffect_self_checkbox el htyp, hc]
      rfl
    refine ⟨?_, ?_, ?_⟩
    · simp [runOp, findByPred, hfind, hc, userClick]
    · rw [hfilter, hce]
    · simp [runOp, findByPred, hfilter, hce, userClick]
  · intro hc
    have hce : clickEffect el el = { el with checked := false } := by
      rw [clickEffect_self_checkbox el htyp, hc]
      rfl
    refine ⟨?_, ?_, ?_⟩
    · simp [runOp, findByPred, hfind, hc, userClick]
    · rw [hfilter, hce]
    · simp [runOp, findByPred, hfilter, hce, userClick]

/-- The message of a `StepError` contains the one-line rendering of its
inner cause verbatim (the causing error text is part of the report). -/
theorem causeMessage_step_contains (f : StepInfo) (all : List StepInfo)
    (inner : Cause) :
    ∃ u w, causeMessage (.step f all inner)
        = u ++ causeMessage inner ++ w := by
  refine ⟨"feather-testing: Step " ++ toString (f.index + 1) ++ " of "
      ++ toString all.length ++ " failed\n\n"
      ++ "Failed at: " ++ f.name ++ "\n" ++ "Cause: ",
    "\n\n" ++ "Chain:\n"
      ++ String.intercalate "\n" (all.map (stepLine f)) ++ "\n", ?_⟩
  simp [causeMessage, String.append_assoc]

/-- C5: a `within(selector, cb)` step on the RTL back end fails exactly when
the selector resolves to no element under the current container — whatever
the nested operations are — or when the nested chain (a fresh session over
the scoped driver running the callback's queued operations) itself fails; in
the nested-failure case, the nested session's `StepError` is the cause of
the scoping step's failure and its report text contains the nested cause's
own text; when the selector resolves and the nested chain succeeds, the step
succeeds.  The last two parts propagate the step outcome to the enclosing
chain's drain. -/
theorem within_scoping (sel : String) (nested : List Op) (st : RTLState) :
    ((st.dom.filter (fun e => inScope none e && e.css == sel)).head? = none →
      runOp none (.within sel nested) st
        = .error (.basic ("within('" ++ sel ++ "'): element not found")))
    ∧ (∀ (root : Elem) (s2 : Session Op) (st' : RTLState),
        (st.dom.filter (fun e => inScope none e && e.css == sel)).head?
            = some root →
        (sessionOfOps nested).executeSteps (runOp (some root.id))
            { dom := st.dom, lastForm := none, events := st.events }
          = (s2, st', none) →
        runOp none (.within sel nested) st
          = .ok { dom := st'.dom, lastForm := st.lastForm,
                  events := st'.events })
    ∧ (∀ (root : Elem) (N : StepError Op),
        (st.dom.filter (fun e => inScope none e && e.css == sel)).head?
            = some root →
        ((sessionOfOps nested).executeSteps (runOp (some root.id))
            { dom := st.dom, lastForm := none, events := st.events }).2.2
          = some N →
        runOp none (.within sel nested) st = .error N.toCause
        ∧ ∃ u w, causeMessage N.toCause
            = u ++ causeMessage N.cause ++ w)
    ∧ (∀ e : Cause, runOp none (.within sel nested) st = .error e →
        ((sessionOfOps [Op.within sel nested]).executeSteps (runOp none)
            st).2.2
          = some ⟨⟨opName (.within sel nested), .within sel nested, 0⟩,
                  (sessionOfOps [Op.within sel nested]).steps, e⟩)
    ∧ (∀ st2 : RTLState,
        runOp none (.within sel nested) st = .ok st2 →
        ((sessionOfOps [Op.within sel nested]).executeSteps (runOp none)
            st).2.2 = none) := by
  refine ⟨?_, ?_, ?_, ?_, ?_⟩
  · intro h
    simp [runOp, h]
  · intro root s2 st' h1 h2
    simp only [runOp, h1]
    rw [runOps_spec, h2]
  · intro root N h1 h2
    rcases hres : (sessionOfOps nested).executeSteps (runOp (some root.id))
        { dom := st.dom, lastForm := none, events := st.events } with
      ⟨s2, st2, oe⟩
    rw [hres] at h2
    simp only at h2
    subst h2
    constructor
    · simp only [runOp, h1]
      rw [runOps_spec, hres]
    · exact causeMessage_step_contains _ _ _
  · intro e h
    simp [Session.executeSteps, runSteps, sessionOfOps, Session.addOp,
      Session.enqueue, h]
  · intro st2 h
    simp [Session.executeSteps, runSteps, sessionOfOps, Session.addOp,
      Session.enqueue, h]

/-- A one-element document whose checkbox is initially unchecked. -/
def c9Elem : Elem :=
  { id := 1, tag := "input", css := "input", role := "checkbox",
    name := "Terms", label := "Terms", placeholder := "", text := "",
    typ := "checkbox", checked := false, value := "", formId := some 7,
    ancestors := [] }

def c9State : RTLState := { dom := [c9Elem], lastForm := none, events := [] }

theorem check_uncheck_idempotent_witness :
    runOp none (.check "Terms") c9State
        = .ok { dom := applyClick c9Elem c9State.dom,
                lastForm := c9Elem.formId,
                events := c9State.events ++ [.clicked c9Elem.id] }
    ∧ (applyClick c9Elem c9State.dom).filter
          (fun e => inScope none e && e.label == "Terms")
        = [{ c9Elem with checked := true }]
    ∧ runOp none (.check "Terms")
          { dom := applyClick c9Elem c9State.dom,
            lastForm := c9Elem.formId,
            events := c9State.events ++ [.clicked c9Elem.id] }
        = .ok { dom := applyClick c9Elem c9State.dom,
                lastForm := c9Elem.formId,
                events := c9State.events ++ [.clicked c9Elem.id] } :=
  (check_uncheck_idempotent none c9State "Terms" c9Elem rfl rfl).2.2.1 rfl

/-- A document holding only a scoping container with nothing inside it. -/
def c5Root : Elem :=
  { id := 10, tag := "div", css := "#panel", role := "", name := "",
    label := "", placeholder := "", text := "", typ := "", checked := false,
    value := "", formId := none, ancestors := [] }

def c5State : RTLState := { dom := [c5Root], lastForm := none, events := [] }

/-- The nested session's StepError when `assertText('Hi')` fails inside the
scoped container. -/
def c5Nested : StepError Op :=
  ⟨⟨"assertText('Hi')", .assertText "Hi", 0⟩,
   [⟨"assertText('Hi')", .assertText "Hi", 0⟩],
   .basic "Unable to find an element with the text: Hi"⟩

theorem within_scoping_witness :
    runOp none (.within "#panel" [.assertText "Hi"]) c5State
        = .error c5Nested.toCause
    ∧ ∃ u w, causeMessage c5Nested.toCause
        = u ++ causeMessage c5Nested.cause ++ w :=
  (within_scoping "#panel" [.assertText "Hi"] c5State).2.2.1 c5Root c5Nested
    rfl rfl

theorem setVal_id (i : Nat) (v : String) (x : Elem) :
    (setVal i v x).id = x.id := by
  unfold setVal
  split <;> rfl

/-- Typing changes only the value, so any predicate blind to the `value`
field is invariant under it. -/
theorem setVal_pred_invariant (i : Nat) (v : String) {p : Elem → Bool}
    (hp : ∀ (x : Elem) (w : String), p { x with value := w } = p x) :
    ∀ x, p (setVal i v x) = p x := by
  intro x
  unfold setVal
  by_cases h : x.id = i
  · rw [if_pos h]
    exact hp x v
  · rw [if_neg h]

theorem queryByPred_ok_some {w : String} {p : Elem → Bool} {dom : List Elem}
    {btn : Elem} (h : queryByPred w p dom = .ok (some btn)) :
    dom.filter p = [btn] := by
  rcases hf : dom.filter p with _ | ⟨a, _ | ⟨b, t⟩⟩
  · unfold queryByPred at h
    rw [hf] at h
    simp at h
  · unfold queryByPred at h
    rw [hf] at h
    simp at h
    simp [hf, h]
  · unfold queryByPred at h
    rw [hf] at h
    simp at h

theorem queryByPred_ok_none {w : String} {p : Elem → Bool} {dom : List Elem}
    (h : queryByPred w p dom = .ok none) :
    dom.filter p = [] := by
  rcases hf : dom.filter p with _ | ⟨a, _ | ⟨b, t⟩⟩
  · rfl
  · unfold queryByPred at h
    rw [hf] at h
    simp at h
  · unfold queryByPred at h
    rw [hf] at h
    simp at h

/-- End-to-end scenario B: `fillIn(label, value)` immediately followed by
`submit()` on a fresh RTL-backed engine (no form interacted with yet),
triggered once. -/
def fillInSubmitRun (dom : List Elem) (ev : List Event) (lbl v : String) :
    Session Op × RTLState × Option (StepError Op) :=
  (sessionOfOps [.fillIn lbl v, .submit]).executeSteps (runOp none)
    ⟨dom, none, ev⟩

/-- A labelled email input that sits outside any form
(`closest('form')` is null). -/
def c6Input : Elem :=
  { id := 1, tag := "input", css := "input", role := "textbox", name := "",
    label := "Email", placeholder := "", text := "", typ := "text",
    checked := false, value := "", formId := none, ancestors := [] }

/-- C6 counterexample: `fillIn('Email', 'x')` resolves its element and
fills it (the typing gesture is issued and the value is set), yet the
subsequent `submit()` fails with the no-form precondition cause, because the
filled input has no enclosing form — refuting that this failure can occur
only when `fillIn` itself failed to resolve any element. -/
theorem submit_precondition_counterexample :
    (fillInSubmitRun [c6Input] [] "Email" "x").2.2.map
        (fun E => (E.failedStep.info, causeMessage E.cause))
      = some (⟨"submit()", 1⟩, rtlSubmitNoFormMsg)
    ∧ (fillInSubmitRun [c6Input] [] "Email" "x").2.1.events
        = [.typed 1 "x"]
    ∧ (fillInSubmitRun [c6Input] [] "Email" "x").2.1.dom
        = [{ c6Input with value := "x" }] :=
  ⟨rfl, rfl, rfl⟩

/-- C6 amended: on the RTL back end, `fillIn` then `submit()` on a fresh
engine behaves as follows.  If the `fillIn` lookup fails, the chain fails at
the `fillIn` step and `submit()` is never attempted.  If `fillIn` resolves
an element, `submit()` fails with the no-form precondition cause exactly
when that element has no enclosing form; otherwise `submit()` succeeds using
the form associated with the filled input — activating the in-form button
whose accessible name matches `/submit/i` when that lookup uniquely
resolves, else the first submit-typed control of the form, else falling back
to the programmatic `requestSubmit()` gesture. -/
theorem fillIn_submit (dom : List Elem) (ev : List Event) (lbl v : String) :
    (∀ c : Cause, rtlFillInLookup none lbl dom = .error c →
      (fillInSubmitRun dom ev lbl v).2.2
          = some ⟨⟨opName (.fillIn lbl v), .fillIn lbl v, 0⟩,
                  [⟨opName (.fillIn lbl v), .fillIn lbl v, 0⟩,
                   ⟨"submit()", .submit, 1⟩], c⟩
      ∧ (fillInSubmitRun dom ev lbl v).2.1 = ⟨dom, none, ev⟩)
    ∧ (∀ el : Elem, rtlFillInLookup none lbl dom = .ok el →
        el.formId = none →
      (fillInSubmitRun dom ev lbl v).2.2
          = some ⟨⟨"submit()", .submit, 1⟩,
                  [⟨opName (.fillIn lbl v), .fillIn lbl v, 0⟩,
                   ⟨"submit()", .submit, 1⟩],
                  .basic rtlSubmitNoFormMsg⟩
      ∧ (fillInSubmitRun dom ev lbl v).2.1.events
          = ev ++ [.typed el.id v])
    ∧ (∀ (el : Elem) (f : Nat) (btn : Elem),
        rtlFillInLookup none lbl dom = .ok el → el.formId = some f →
        queryByPred "with the role button and name /submit/i"
            (fun e => e.formId == some f && e.role == "button"
              && containsCI e.name "submit") dom = .ok (some btn) →
      (fillInSubmitRun dom ev lbl v).2.2 = none
      ∧ (fillInSubmitRun dom ev lbl v).2.1.events
          = ev ++ [.typed el.id v, .clicked btn.id])
    ∧ (∀ (el : Elem) (f : Nat) (btn : Elem),
        rtlFillInLookup none lbl dom = .ok el → el.formId = some f →
        queryByPred "with the role button and name /submit/i"
            (fun e => e.formId == some f && e.role == "button"
              && containsCI e.name "submit") dom = .ok none →
        (dom.filter (fun e => e.formId == some f
            && (e.tag == "button" || e.tag == "input")
            && e.typ == "submit")).head? = some btn →
      (fillInSubmitRun dom ev lbl v).2.2 = none
      ∧ (fillInSubmitRun dom ev lbl v).2.1.events
          = ev ++ [.typed el.id v, .clicked btn.id])
    ∧ (∀ (el : Elem) (f : Nat),
        rtlFillInLookup none lbl dom = .ok el → el.formId = some f →
        queryByPred "with the role button and name /submit/i"
            (fun e => e.formId == some f && e.role == "button"
              && containsCI e.name "submit") dom = .ok none →
        (dom.filter (fun e => e.formId == some f
            && (e.tag == "button" || e.tag == "input")
            && e.typ == "submit")).head? = none →
      (fillInSubmitRun dom ev lbl v).2.2 = none
      ∧ (fillInSubmitRun dom ev lbl v).2.1.events
          = ev ++ [.typed el.id v, .formSubmitted f]) := by
  have hrun : fillInSubmitRun dom ev lbl v
      = (⟨[], 2⟩,
         runSteps (runOp none)
           [⟨opName (.fillIn lbl v), .fillIn lbl v, 0⟩,
            ⟨"submit()", .submit, 1⟩]
           [⟨opName (.fillIn lbl v), .fillIn lbl v, 0⟩,
            ⟨"submit()", .submit, 1⟩]
           ⟨dom, none, ev⟩) := rfl
  refine ⟨?_, ?_, ?_, ?_, ?_⟩
  · intro c hlk
    have hstep1 : runOp none (.fillIn lbl v) ⟨dom, none, ev⟩
        = .error c := by
      simp only [runOp, hlk]
    rw [hrun]
    simp only [runSteps, hstep1]
    simp
  · intro el hlk hform
    have hstep1 : runOp none (.fillIn lbl v) ⟨dom, none, ev⟩
        = .ok ⟨dom.map (setVal el.id v), el.formId,
               ev ++ [.typed el.id v]⟩ := by
      simp only [runOp, hlk]
      rfl
    have hstep2 : runOp none Op.submit
        (⟨dom.map (setVal el.id v), el.formId,
          ev ++ [.typed el.id v]⟩ : RTLState)
        = .error (.basic rtlSubmitNoFormMsg) := by
      simp only [runOp, hform]
    rw [hrun]
    simp only [runSteps, hstep1, hstep2]
    simp
  · intro el f btn hlk hform hq
    have hfilter : (dom.map (setVal el.id v)).filter
          (fun e => e.formId == some f && e.role == "button"
            && containsCI e.name "submit")
        = [setVal el.id v btn] := by
      rw [filter_map_invariant (setVal_pred_invariant el.id v
            (p := fun e => e.formId == some f && e.role == "button"
              && containsCI e.name "submit") (fun x w => rfl)) dom,
          queryByPred_ok_some hq]
      rfl
    have hstep1 : runOp none (.fillIn lbl v) ⟨dom, none, ev⟩
        = .ok ⟨dom.map (setVal el.id v), el.formId,
               ev ++ [.typed el.id v]⟩ := by
      simp only [runOp, hlk]
      rfl
    have hstep2 : runOp none Op.submit
        (⟨dom.map (setVal el.id v), el.formId,
          ev ++ [.typed el.id v]⟩ : RTLState)
        = .ok (userClick (setVal el.id v btn)
            ⟨dom.map (setVal el.id v), el.formId,
             ev ++ [.typed el.id v]⟩) := by
      simp only [runOp, hform, queryByPred, hfilter]
    rw [hrun]
    simp only [runSteps, hstep1, hstep2]
    simp [userClick, setVal_id]
  · intro el f btn hlk hform hq hsel
    have hfilter : (dom.map (setVal el.id v)).filter
          (fun e => e.formId == some f && e.role == "button"
            && containsCI e.name "submit")
        = [] := by
      rw [filter_map_invariant (setVal_pred_invariant el.id v
            (p := fun e => e.formId == some f && e.role == "button"
              && containsCI e.name "submit") (fun x w => rfl)) dom,
          queryByPred_ok_none hq]
      rfl
    have hfilter2 : ((dom.map (setVal el.id v)).filter
          (fun e => e.formId == some f
            && (e.tag == "button" || e.tag == "input")
            && e.typ == "submit")).head?
        = some (setVal el.id v btn) := by
      rw [filter_map_invariant (setVal_pred_invariant el.id v
            (p := fun e => e.formId == some f
              && (e.tag == "button" || e.tag == "input")
              && e.typ == "submit") (fun x w => rfl)) dom,
          List.head?_map, hsel]
      rfl
    have hstep1 : runOp none (.fillIn lbl v) ⟨dom, none, ev⟩
        = .ok ⟨dom.map (setVal el.id v), el.formId,
               ev ++ [.typed el.id v]⟩ := by
      simp only [runOp, hlk]
      rfl
    have hstep2 : runOp none Op.submit
        (⟨dom.map (setVal el.id v), el.formId,
          ev ++ [.typed el.id v]⟩ : RTLState)
        = .ok (userClick (setVal el.id v btn)
            ⟨dom.map (setVal el.id v), el.formId,
             ev ++ [.typed el.id v]⟩) := by
      simp only [runOp, hform, queryByPred, hfilter, hfilter2]
    rw [hrun]
    simp only [runSteps, hstep1, hstep2]
    simp [userClick, setVal_id]
  · intro el f hlk hform hq hsel
    have hfilter : (dom.map (setVal el.id v)).filter
          (fun e => e.formId == some f && e.role == "button"
            && containsCI e.name "submit")
        = [] := by
      rw [filter_map_invariant (setVal_pred_invariant el.id v
            (p := fun e => e.formId == some f && e.role == "button"
              && containsCI e.name "submit") (fun x w => rfl)) dom,
          queryByPred_ok_none hq]
      rfl
    have hfilter2 : ((dom.map (setVal el.id v)).filter
          (fun e => e.formId == some f
            && (e.tag == "button" || e.tag == "input")
            && e.typ == "submit")).head?
        = none := by
      rw [filter_map_invariant (setVal_pred_invariant el.id v
            (p := fun e => e.formId == some f
              && (e.tag == "button" || e.tag == "input")
              && e.typ == "submit") (fun x w => rfl)) dom,
          List.head?_map, hsel]
      rfl
    have hstep1 : runOp none (.fillIn lbl v) ⟨dom, none, ev⟩
        = .ok ⟨dom.map (setVal el.id v), el.formId,
               ev ++ [.typed el.id v]⟩ := by
      simp only [runOp, hlk]
      rfl
    have hstep2 : runOp none Op.submit
        (⟨dom.map (setVal el.id v), el.formId,
          ev ++ [.typed el.id v]⟩ : RTLState)
        = .ok ⟨dom.map (setVal el.id v), el.formId,
               (ev ++ [.typed el.id v]) ++ [.formSubmitted f]⟩ := by
      simp only [runOp, hform, queryByPred, hfilter, hfilter2]
    rw [hrun]
    simp only [runSteps, hstep1, hstep2]
    simp

/-- A labelled email input inside form 7. -/
def c6FormInput : Elem :=
  { id := 1, tag := "input", css := "input", role := "textbox", name := "",
    label := "Email", placeholder := "", text := "", typ := "text",
    checked := false, value := "", formId := some 7, ancestors := [7] }

/-- A button named Submit inside form 7. -/
def c6SubmitBtn : Elem :=
  { id := 2, tag := "button", css := "button", role := "button",
    name := "Submit", label := "", placeholder := "", text := "Submit",
    typ := "button", checked := false, value := "", formId := some 7,
    ancestors := [7] }

theorem fillIn_submit_witness :
    (fillInSubmitRun [c6FormInput, c6SubmitBtn] [] "Email" "x").2.2 = none
    ∧ (fillInSubmitRun [c6FormInput, c6SubmitBtn] [] "Email" "x").2.1.events
        = [] ++ [.typed c6FormInput.id "x", .clicked c6SubmitBtn.id] :=
  (fillIn_submit [c6FormInput, c6SubmitBtn] [] "Email" "x").2.2.1
    c6FormInput 7 c6SubmitBtn rfl rfl rfl

/-! ### PlaywrightDriver.assertPath (src/playwright/driver.ts lines 122–132)

The page's current URL is modelled as its path-with-query string (resolution
of the expected string against the configured base URL, done inside
Playwright's `toHaveURL`, is outside the repository and is abstracted away:
both sides are relative URL strings).  `toHaveURL(string)` asserts equality
of the page URL with the expected string; `toHaveURL(regex)` with the
pattern built by `assertPath` — `^[^?]*escaped(\?.*)?$` with the path
regexp-escaped — succeeds exactly when the part of the URL before the first
question mark ends with the path (faithful for the '?'-free paths the
escaping targets). -/

/-- Model of `new URLSearchParams(obj).toString()` for keys and values that
need no percent-encoding; a JS object iterates its string keys in insertion
order, so the pairs are serialized in the order given. -/
def serializeParams (qp : List (String × String)) : String :=
  String.intercalate "&" (qp.map (fun p => p.1 ++ "=" ++ p.2))

/-- The part of a URL before its first question mark. -/
def pathPart (url : String) : String :=
  String.mk (url.data.takeWhile (fun ch => ch != '?'))

/-- The part of a URL after its first question mark (empty when none). -/
def queryPart (url : String) : String :=
  String.mk ((url.data.dropWhile (fun ch => ch != '?')).drop 1)

/-- Split a character list at every occurrence of `sep`. -/
def splitOnChar (sep : Char) : List Char → List (List Char)
  | [] => [[]]
  | c :: rest =>
      match splitOnChar sep rest with
      | [] => if c == sep then [[], []] else [[c]]
      | g :: gs => if c == sep then [] :: g :: gs else (c :: g) :: gs

/-- The query of a URL parsed into key/value pairs (specification-side
helper used to state the unordered-equivalence reading of the claim). -/
def queryPairs (url : String) : List (String × String) :=
  if queryPart url = "" then []
  else (splitOnChar '&' (queryPart url).data).map (fun kv =>
    match splitOnChar '=' kv with
    | [] => (String.mk kv, "")
    | k :: vs => (String.mk k,
        String.intercalate "=" (vs.map String.mk)))

/-- The regex `^[^?]*escaped(\?.*)?$` of `assertPath` without query
parameters: the pre-query part of the URL must end with `path`. -/
def toHaveURLPathMatch (url path : String) : Bool :=
  path.data.isSuffixOf (pathPart url).data

/-- `PlaywrightDriver.assertPath`: with `queryParams`, serialize them and
assert the URL equals `path?params` as a string; without, assert the URL
against the path-suffix pattern ignoring any query string. -/
def pwAssertPath (url path : String) :
    Option (List (String × String)) → Except Cause Unit
  | some qp =>
      if url == path ++ "?" ++ serializeParams qp then .ok ()
      else .error (.basic ("Expected the page URL to be '" ++ path ++ "?"
        ++ serializeParams qp ++ "' but it is '" ++ url ++ "'"))
  | none =>
      if toHaveURLPathMatch url path then .ok ()
      else .error (.basic ("Expected the page URL to match the path '"
        ++ path ++ "' but it is '" ++ url ++ "'"))

/-- C7 counterexample: the page URL `/dashboard?page=2&tab=x` has path
`/dashboard` and exactly the query parameters tab=x, page=2 as an unordered
set, yet `assertPath('/dashboard', queryParams tab=x, page=2)` fails,
because the driver compares the serialized strings and the serialization
order differs. -/
theorem assertPath_unordered_counterexample :
    pathPart "/dashboard?page=2&tab=x" = "/dashboard"
    ∧ (queryPairs "/dashboard?page=2&tab=x").Perm [("tab", "x"), ("page", "2")]
    ∧ pwAssertPath "/dashboard?page=2&tab=x" "/dashboard"
        (some [("tab", "x"), ("page", "2")])
      = .error (.basic ("Expected the page URL to be '/dashboard?tab=x&page=2'"
          ++ " but it is '/dashboard?page=2&tab=x'")) := by
  refine ⟨rfl, by decide, rfl⟩

theorem string_append_left_cancel {a b c : String} (h : a ++ b = a ++ c) :
    b = c := by
  have hd := congrArg String.data h
  simp only [String.data_append] at hd
  exact String.ext (List.append_inj_right hd rfl)

theorem takeWhile_no_qmark (l1 : List Char) (rest : List Char)
    (h : ∀ ch ∈ l1, ch ≠ '?') :
    (l1 ++ '?' :: rest).takeWhile (fun ch => ch != '?') = l1 := by
  induction l1 with
  | nil => simp [List.takeWhile]
  | cons a l ih =>
      have ha : (a != '?') = true := by
        simpa using h a (by simp)
      simp only [List.cons_append, List.takeWhile_cons, ha, if_pos]
      rw [ih (fun ch hch => h ch (by simp [hch]))]

/-- C7 amended: `assertPath(path, queryParams)` succeeds exactly when the
page URL equals `path ++ "?" ++` the queryParams serialized in the order
given — an order-dependent string comparison, so a URL listing the same
parameters in a different serialization order fails, as does any superset,
subset or differently-valued query; without `queryParams` it succeeds
exactly when the pre-query part of the URL ends with `path`, ignoring any
query string. -/
theorem assertPath_exact_string :
    (∀ (url path : String) (qp : List (String × String)),
      pwAssertPath url path (some qp) = .ok ()
        ↔ url = path ++ "?" ++ serializeParams qp)
    ∧ (∀ (path : String) (qp qp' : List (String × String)),
        serializeParams qp' ≠ serializeParams qp →
      pwAssertPath (path ++ "?" ++ serializeParams qp') path (some qp)
        ≠ .ok ())
    ∧ (∀ url path : String,
      pwAssertPath url path none = .ok ()
        ↔ toHaveURLPathMatch url path = true)
    ∧ (∀ (path q : String), (∀ ch ∈ path.data, ch ≠ '?') →
      pathPart (path ++ "?" ++ q) = path
      ∧ pwAssertPath (path ++ "?" ++ q) path none = .ok ()) := by
  have hiff : ∀ (url path : String) (qp : List (String × String)),
      pwAssertPath url path (some qp) = .ok ()
        ↔ url = path ++ "?" ++ serializeParams qp := by
    intro url path qp
    constructor
    · intro h
      by_cases hc : url = path ++ "?" ++ serializeParams qp
      · exact hc
      · simp [pwAssertPath, hc] at h
    · intro h
      simp [pwAssertPath, h]
  have hpath : ∀ (path q : String), (∀ ch ∈ path.data, ch ≠ '?') →
      pathPart (path ++ "?" ++ q) = path := by
    intro path q h
    apply String.ext
    show ((path ++ "?" ++ q).data.takeWhile (fun ch => ch != '?')) = path.data
    have : (path ++ "?" ++ q).data = path.data ++ '?' :: q.data := by
      simp [String.data_append]
    rw [this, takeWhile_no_qmark path.data q.data h]
  refine ⟨hiff, ?_, ?_, ?_⟩
  · intro path qp qp' hne h
    exact hne (string_append_left_cancel ((hiff _ _ _).mp h))
  · intro url path
    constructor
    · intro h
      by_cases hc : toHaveURLPathMatch url path = true
      · exact hc
      · simp [pwAssertPath, hc] at h
    · intro h
      simp [pwAssertPath, h]
  · intro path q h
    refine ⟨hpath path q h, ?_⟩
    have hm : toHaveURLPathMatch (path ++ "?" ++ q) path = true := by
      unfold toHaveURLPathMatch
      rw [hpath path q h]
      simp
    simp [pwAssertPath, hm]

theorem assertPath_exact_string_witness :
    pathPart ("/dashboard" ++ "?" ++ "tab=x") = "/dashboard"
    ∧ pwAssertPath ("/dashboard" ++ "?" ++ "tab=x") "/dashboard" none
        = .ok () :=
  assertPath_exact_string.2.2.2 "/dashboard" "tab=x" (by decide)

end Feather
